import Mathlib

/-!
Shallow embedding of the core of `src/vm.cpp`, a small JVM-style virtual
machine: the GC root scanner (`iterate`), the stack-rooted protector
discipline (`Thread::Protector`), the thread-state coordinator (`enter`),
the exception factory (`makeTrace`), and the relevant opcode cases of the
interpreter loop (`run`): `if_icmple`, `arraylength`, `iastore`,
`checkcast`, the `invoke` join point and the `throw_` unwind loop.

Modelling conventions:
* machine words are `Nat` (with an explicit `% 2 ^ 32` where the source
  uses wrapping `unsigned` arithmetic) and boxed ints are `Int`;
* the null reference is `Option.none`; operand stacks are Lean lists with
  the head as top of stack (`stack[sp - 1]`);
* blocking waits on the state monitor (`Monitor::wait`) perform no writes
  of their own: they are modelled as having completed, and only the
  writes of the modelled thread appear in the result;
* a reached `abort(t)` (fatal invariant violation) and C undefined
  behaviour (stack underflow, dereferencing a null frame) are modelled as
  distinguished outcomes / `Option.none`.

The build assumed throughout is the 64-bit little-endian one
(`sizeof(object) = 8`), matching the pointer arithmetic in the source.
-/

namespace Vm

/-- Thread::StackSize from `vm.cpp` (64 * 1024 object slots). -/
def StackSize : Nat := 64 * 1024

/-- Thread::HeapSize from `vm.cpp` (64 * 1024 bytes of nursery). -/
def HeapSize : Nat := 64 * 1024

/-- Wrap-around modulus of the 32-bit `unsigned` counters in `Machine`. -/
def U32 : Nat := 4294967296

/-! ## Root scanner (`iterate`, vm.cpp lines 148-169) and protectors -/

/-- Address of a slot passed to the heap visitor by the root scanner.
`stackSlot i` stands for `t->stack + i`; `protSlot p` stands for the `p`
field of a protector link (identified by a numeric slot id). -/
inductive RootAddr where
  | threadSlot
  | frameSlot
  | codeSlot
  | exceptionSlot
  | stackSlot (i : Nat)
  | protSlot (p : Nat)
deriving DecidableEq

/-- The per-thread state read by the root scanner: the operand-stack
cursor `sp` and the thread's protector list (head = most recently
registered, i.e. `t->protector` following the `next` links), each link
identified by the numeric id of its protected slot. -/
structure IterThread where
  sp : Nat
  protector : List Nat

/-- Shallow embedding of `iterate(Thread*, Heap::Visitor*)` (vm.cpp
148-169), restricted to the slots of the given thread.  It visits the
`thread`, `frame`, `code` and `exception` slots, then runs
`for (unsigned i = 0; i < t->sp; ++i) v->visit(t->stack + t->sp);`
— note that the loop body of the source visits `t->stack + t->sp`, not
`t->stack + i` — and then the `p` slot of every protector link.
The source also resets `t->heapIndex` to 0 and recurses into child
threads; neither affects which slots of this thread are visited and they
are not modelled here. -/
def iterate (t : IterThread) : List RootAddr :=
  [RootAddr.threadSlot, RootAddr.frameSlot, RootAddr.codeSlot, RootAddr.exceptionSlot]
    ++ (List.range t.sp).map (fun _ => RootAddr.stackSlot t.sp)
    ++ t.protector.map RootAddr.protSlot

/-- Thread::Protector's constructor (vm.cpp 63-65): it records the current
`t->protector` in its `next` field and installs itself at the head.
Returns the new protector list together with the saved `next`. -/
def protectorInit (l : List Nat) (slot : Nat) : List Nat × List Nat :=
  (slot :: l, l)

/-- Thread::Protector's destructor (vm.cpp 67-69): `t->protector = next`,
i.e. the list saved at construction is written back. -/
def protectorDispose (savedNext : List Nat) : List Nat :=
  savedNext

/-- A properly nested arrangement of protector scopes: `scope slot inner
rest` opens a protector for `slot`, runs the nested scopes `inner` inside
it, closes it, and continues with `rest`. -/
inductive ProtScopes where
  | nil : ProtScopes
  | scope (slot : Nat) (inner : ProtScopes) (rest : ProtScopes) : ProtScopes

/-- Executes a properly nested arrangement of protector scopes against a
protector list, following the constructor/destructor pair: construction
pushes, destruction writes back the saved `next`. -/
def runProtScopes : ProtScopes → List Nat → List Nat
  | ProtScopes.nil, l => l
  | ProtScopes.scope slot inner rest, l =>
    let opened := protectorInit l slot
    let _duringScope := runProtScopes inner opened.1
    runProtScopes rest (protectorDispose opened.2)

/-! ## The `if_icmple` opcode (vm.cpp 1403-1413) -/

/-- Shallow embedding of the `if_icmple` case of `run`.  On entry `ip`
points at the first offset byte (the opcode byte at `ip - 1` has been
consumed by the dispatch `switch`).  The two offset bytes are read, then
`b` and `a` are popped; the source branches with
`if (intValue(t, a) < intValue(t, b)) ip = (ip - 1) + ((offset1 << 8) | offset2);`
`ip` is the thread's `unsigned` instruction pointer, hence the `% U32`.
Returns the remaining stack and the new `ip`; `none` models operand-stack
underflow (undefined behaviour in the source). -/
def if_icmpleStep (body : List Nat) (ip : Nat) (stack : List Int) :
    Option (List Int × Nat) :=
  let offset1 := body.getD ip 0
  let offset2 := body.getD (ip + 1) 0
  let ip2 := ip + 2
  match stack with
  | b :: a :: rest =>
    some (rest, if a < b then (ip2 - 1 + ((offset1 <<< 8) ||| offset2)) % U32 else ip2)
  | _ => none

/-! ## The `arraylength` opcode (vm.cpp 888-901) -/

/-- Array variants relevant to `arraylength`; per the object layout, all
but the reference-array variant store their length directly after the
class word, the reference-array variant in a distinct slot — in either
case the opcode pushes that length. -/
inductive ArrKind where
  | objK
  | byteK
  | charK
  | shortK
  | intK
  | longK
deriving DecidableEq

/-- An operand-stack value as seen by the `arraylength` case: null, a
boxed int, or an array reference carrying its variant and length. -/
inductive Val where
  | vnull
  | vint (n : Int)
  | varr (kind : ArrKind) (len : Nat)
deriving DecidableEq

/-- Outcome of executing the `arraylength` case.  `continued` would be a
`goto loop` (dispatch of the next opcode), `aborted` is the trailing
`abort(t)` at line 901 being reached with the given stack contents, and
`thrown` is the `goto throw_` of the null-array path. -/
inductive ALOutcome where
  | continued (stack : List Val)
  | aborted (stackAtAbort : List Val)
  | thrown
deriving DecidableEq

/-- Shallow embedding of the `arraylength` case of `run` (vm.cpp
888-901).  The case pops the array; on null it makes a
NullPointerException and jumps to the unwinder.  On a non-null array it
pushes the boxed length — and then, the case block ending in `abort(t)`
with no `goto loop`, control falls through to the abort.  A non-null,
non-array top (whose length-field read is unspecified) and an empty stack
are left unmodelled (`none`). -/
def arraylengthStep : List Val → Option ALOutcome
  | [] => none
  | Val.vnull :: _rest => some ALOutcome.thrown
  | Val.varr _kind len :: rest => some (ALOutcome.aborted (Val.vint (Int.ofNat len) :: rest))
  | Val.vint _ :: _rest => none

/-! ## The exception factory's `makeTrace` (vm.cpp 391-402) -/

/-- A frame record as used by `makeTrace`: its method (by id) and its
saved `ip` field. -/
structure TFrame where
  method : Nat
  fip : Nat
deriving DecidableEq

/-- The thread state relevant to `makeTrace`: the `t->frame` chain
(head = current frame, tail = callers) and the live `t->ip`. -/
structure TThread where
  frames : List TFrame
  ip : Nat
deriving DecidableEq

/-- The accumulation loop of `makeTrace`:
`for (; t->frame; t->frame = frameNext(t, t->frame)) trace = makeTrace(t, frameMethod(..), frameIp(..), trace);`
Each frame's `(method, ip)` pair is prepended to the accumulator. -/
def traceLoop : List TFrame → List (Nat × Nat) → List (Nat × Nat)
  | [], acc => acc
  | f :: rest, acc => traceLoop rest ((f.method, f.fip) :: acc)

/-- Shallow embedding of `makeTrace(Thread*)` (vm.cpp 391-402).  It first
writes the live `ip` into the current frame (`frameIp(t, t->frame) = t->ip`
— dereferencing a null `t->frame` is undefined behaviour, modelled as
`none`), then runs the loop above, whose induction variable is `t->frame`
itself.  Returns the post-call thread state and the produced trace list. -/
def makeTrace (t : TThread) : Option (TThread × List (Nat × Nat)) :=
  match t.frames with
  | [] => none
  | f :: rest =>
    some (⟨[], t.ip⟩, traceLoop ({ f with fip := t.ip } :: rest) [])

/-! ## The `iastore` opcode (vm.cpp 1265-1286) and `makeString` -/

/-- The message built by the out-of-bounds paths of the array opcodes:
`makeString(t, "%d not in [0,%d]", i, length)` (vm.cpp 374-389 formats
with `vsnprintf`; the backing byte array additionally carries the
terminating NUL of the C string, and the 256-byte format buffer never
truncates these short messages). -/
def oobMessage (i : Int) (len : Nat) : String :=
  toString i ++ " not in [0," ++ toString len ++ "]"

/-- Outcome of the `iastore` case: a successful element store, an
ArrayIndexOutOfBoundsException carrying its message, or a
NullPointerException. -/
inductive IastoreOutcome where
  | stored (a : List Int)
  | arrayIndexOutOfBounds (message : String)
  | nullPointer
deriving DecidableEq

/-- Shallow embedding of the `iastore` case of `run` (vm.cpp 1265-1286).
The case pops value, index and array; a null array raises
NullPointerException; an index failing
`i >= 0 and static_cast<uint32_t>(i) < intArrayLength(t, array)`
raises ArrayIndexOutOfBoundsException with the `%d not in [0,%d]`
message; otherwise the element is stored. -/
def iastore (arr : Option (List Int)) (i : Int) (v : Int) : IastoreOutcome :=
  match arr with
  | none => IastoreOutcome.nullPointer
  | some a =>
    if 0 ≤ i ∧ i < (a.length : Int) then
      IastoreOutcome.stored (a.set i.toNat v)
    else
      IastoreOutcome.arrayIndexOutOfBounds (oobMessage i a.length)

/-! ## Classes, objects and `instanceOf` (vm.cpp 496-523) -/

/-- A class record as used by `instanceOf` and the unwinder: whether it is
an interface, its type id (`interfaceId` / `classId`), the type ids of the
interface-table entries (the even slots of `classInterfaceTable`), and the
superclass (null only for the root class). -/
inductive ClassM : Type where
  | mk : (isInterface : Bool) → (cid : Nat) → (itable : List Nat) →
      (super : Option ClassM) → ClassM

/-- Projection: the interface flag of a class. -/
def ClassM.isInterface : ClassM → Bool
  | ClassM.mk b _ _ _ => b

/-- Projection: the type id of a class. -/
def ClassM.cid : ClassM → Nat
  | ClassM.mk _ i _ _ => i

/-- The interface branch of `instanceOf`: walk the superclass chain
(`for (object oc = objectClass(o); oc; oc = classSuper(t, oc))`, the
chain's first element being the object's never-null class) and
linear-scan each level's interface table for the target interface's type
id (the even slots of the table, `i += 2`). -/
def interfaceChainHas (id : Nat) : ClassM → Bool
  | ClassM.mk _ _ itable none => itable.contains id
  | ClassM.mk _ _ itable (some sup) => itable.contains id || interfaceChainHas id sup

/-- The class branch of `instanceOf`: walk the same superclass chain
comparing type ids. -/
def classChainHas (id : Nat) : ClassM → Bool
  | ClassM.mk _ cid _ none => cid == id
  | ClassM.mk _ cid _ (some sup) => cid == id || classChainHas id sup

/-- A heap object, reduced to its class word (all the unwinder and
`checkcast` inspect). -/
structure ObjM where
  cls : ClassM

/-- Shallow embedding of `instanceOf(Thread*, object class_, object o)`
(vm.cpp 496-523): false for null `o`; otherwise the interface or class
chain walk depending on `typeOf(class_)`. -/
def instanceOf (class_ : ClassM) (o : Option ObjM) : Bool :=
  match o with
  | none => false
  | some obj =>
    if class_.isInterface then interfaceChainHas class_.cid obj.cls
    else classChainHas class_.cid obj.cls

/-! ## The `throw_` unwind loop (vm.cpp 2142-2172) -/

/-- An exception-handler record: `(startPc, endPc, handlerPc, catchTypeIndex)`
per the data model.  The unwind loop reads only `exceptionHandlerIp` and
`exceptionHandlerCatchType`. -/
structure EH where
  startPc : Nat
  endPc : Nat
  handlerIp : Nat
  catchType : Nat

/-- A frame as seen by the unwinder: its operand-stack base
(`frameStackBase`), the exception-handler table of its method's code (a
null `codeExceptionHandlerTable` is the empty list), and that code's
constant pool restricted to the (resolved) class entries the handler
table's `catchType` indices designate. -/
structure FrameU where
  stackBase : Nat
  handlers : List EH
  pool : List ClassM

/-- Stand-in for a constant-pool slot read past the end of the modelled
pool; the source performs an unchecked `rawArrayBody` access there. -/
def undefinedClass : ClassM := ClassM.mk false 0 [] none

/-- The matching test of the unwind loop (vm.cpp 2150-2153): a handler
matches when `catchType == 0` or
`instanceOf(t, rawArrayBody(t, codePool(t, code))[catchType], exception)`.
No `startPc` / `endPc` comparison is performed. -/
def handlerMatches (pool : List ClassM) (exc : ObjM) (eh : EH) : Bool :=
  eh.catchType == 0 || instanceOf (pool.getD eh.catchType undefinedClass) (some exc)

/-- Outcome of the unwinder.  `handled frames sp ip top exception` means a
handler was selected: `frames` is the remaining frame chain (matched frame
at its head), `sp` the restored-and-pushed stack cursor (the exception
object `top` sits at `sp - 1`), `ip` the handler's ip and `exception` the
thread's exception slot (cleared to `none`).  `uncaught` is the
fall-through to the thread's uncaughtExceptionHandler frame (sp = 1,
ip = 0, exception pushed and cleared). -/
inductive ThrowOutcome where
  | handled (frames : List FrameU) (sp ip : Nat) (top : ObjM) (exception : Option ObjM)
  | uncaught (top : ObjM)

/-- The frame walk of the unwinder (vm.cpp 2143-2163):
`for (; frame; frame = frameNext(t, frame))` scans each frame's handler
table in order; on the first match it restores `sp = frameStackBase`,
sets `ip = exceptionHandlerIp(eh)`, pushes the exception and clears it. -/
def unwindLoop (exc : ObjM) : List FrameU → ThrowOutcome
  | [] => ThrowOutcome.uncaught exc
  | f :: rest =>
    match f.handlers.find? (fun eh => handlerMatches f.pool exc eh) with
    | some eh =>
      ThrowOutcome.handled (f :: rest) (f.stackBase + 1) eh.handlerIp exc none
    | none => unwindLoop exc rest

/-- The machine state at the `throw_` label: the frame chain (innermost
first), the live `ip` at the moment of the throw, and the thrown
exception object. -/
structure ThrowState where
  frames : List FrameU
  ip : Nat
  exception : ObjM

/-- Shallow embedding of the `throw_` label of `run`.  The live `ip` of
the faulting state plays no part in handler selection — the source loop
never reads `startPc` / `endPc` nor compares against `ip`. -/
def throwStep (st : ThrowState) : ThrowOutcome :=
  unwindLoop st.exception st.frames

/-! ## The `invoke` join point (vm.cpp 2125-2140) -/

/-- Size of an `object` slot on the modelled 64-bit build. -/
def wordSize : Nat := 8

/-- Little-endian byte image of one stack/local slot. -/
def bytesOfWord (w : Nat) : List Nat :=
  (List.range wordSize).map (fun i => w / 256 ^ i % 256)

/-- Reassembles a little-endian byte image into a slot value. -/
def wordOfBytes (bs : List Nat) : Nat :=
  bs.foldr (fun b acc => b + 256 * acc) 0

/-- Byte image of a run of slots. -/
def flattenWords (ws : List Nat) : List Nat :=
  (ws.map bytesOfWord).flatten

/-- Slot values of a byte image (`bs.length / wordSize` complete slots). -/
def unflattenWords (bs : List Nat) : List Nat :=
  (List.range (bs.length / wordSize)).map
    (fun i => wordOfBytes ((bs.drop (i * wordSize)).take wordSize))

/-- C `memcpy(dst, src, n)` over byte images of equal-typed regions. -/
def memcpyBytes (dst src : List Nat) (n : Nat) : List Nat :=
  src.take n ++ dst.drop n

/-- Outcome of the `invoke` join point: a StackOverflowError, or a new
frame entered with the caller's `ip` written back, the new frame's stack
base, its locals (as slot values), and the new `ip` and `sp`. -/
inductive InvokeOutcome where
  | stackOverflow
  | entered (callerSavedIp : Nat) (stackBase : Nat) (locals : List Nat) (ip sp : Nat)
deriving DecidableEq

/-- Shallow embedding of the `invoke` label of `run` (vm.cpp 2125-2140)
with `parameterCount = k`.  It checks
`codeMaxStack(..) + sp - parameterCount > Thread::StackSize` (raising
StackOverflowError), writes `ip` into the caller frame, lowers `sp` by
`k`, makes the frame with base `sp`, then runs
`memcpy(frameLocals(t, frame), stack + sp, parameterCount);`
— the third argument of `memcpy` counts bytes.  `freshLocalsBytes` is the
byte image (length `maxLocals * wordSize`) of the freshly made frame's
locals array before the copy; `makeFrame` is generated code outside
`src/` and its initial locals content is passed in rather than fixed. -/
def invokeStep (maxStack sp k : Nat) (stack : List Nat)
    (freshLocalsBytes : List Nat) (ip : Nat) : InvokeOutcome :=
  if maxStack + sp - k > StackSize then InvokeOutcome.stackOverflow
  else
    let base := sp - k
    let params := (stack.drop base).take k
    let localsBytes := memcpyBytes freshLocalsBytes (flattenWords params) k
    InvokeOutcome.entered ip base (unflattenWords localsBytes) 0 base

/-! ## The thread coordinator (`enter`, vm.cpp 193-290) -/

/-- Thread::State from `vm.cpp`. -/
inductive TState where
  | noState
  | activeState
  | idleState
  | zombieState
  | exclusiveState
  | exitState
deriving DecidableEq

/-- The Machine fields governed by the state monitor: whether some thread
holds the exclusive slot, and the two `unsigned` counters. -/
structure Coord where
  exclusive : Bool
  activeCount : Nat
  liveCount : Nat
deriving DecidableEq

/-- Increment of a 32-bit `unsigned` counter. -/
def incr (n : Nat) : Nat := (n + 1) % U32

/-- Decrement of a 32-bit `unsigned` counter. -/
def decr (n : Nat) : Nat := (n + U32 - 1) % U32

/-- Shallow embedding of `enter(Thread*, Thread::State)` (vm.cpp 193-290)
as seen from the calling thread: given its current state `st`, the
monitor-guarded machine fields `c` and the target state `s`, it returns
the thread's new state and the machine fields after this call's writes,
or `none` when the source reaches `abort(t)` (a failed `assert` or the
`default` arm).  The `Monitor::wait` loops (waiting for `exclusive` to
clear, for `activeCount` to drop to 1, or for `liveCount` to drop to 1)
block on writes performed by other threads and write nothing themselves;
they are modelled as having completed.  The yield loop of the
ExclusiveState arm re-enters Idle then Active, whose writes cancel
(`--activeCount` then `++activeCount`, no `liveCount` change since the
re-entry to Active starts from IdleState). -/
def enter (st : TState) (c : Coord) (s : TState) : Option (TState × Coord) :=
  if s = st then some (st, c)
  else
    match s with
    | TState.exclusiveState =>
      match st with
      | TState.activeState => some (TState.exclusiveState, { c with exclusive := true })
      | _ => none
    | TState.idleState | TState.zombieState =>
      match (match st with
             | TState.exclusiveState =>
               if c.exclusive then some { c with exclusive := false } else none
             | TState.activeState => some c
             | _ => none) with
      | none => none
      | some c1 =>
        let c2 := { c1 with activeCount := decr c1.activeCount }
        let c3 :=
          if s = TState.zombieState then { c2 with liveCount := decr c2.liveCount } else c2
        some (s, c3)
    | TState.activeState =>
      match st with
      | TState.exclusiveState =>
        if c.exclusive then some (TState.activeState, { c with exclusive := false })
        else none
      | TState.noState | TState.idleState =>
        let c1 := { c with activeCount := incr c.activeCount }
        let c2 :=
          if st = TState.noState then { c1 with liveCount := incr c1.liveCount } else c1
        some (TState.activeState, c2)
      | _ => none
    | TState.exitState =>
      match st with
      | TState.exclusiveState =>
        if c.exclusive then
          some (TState.exitState,
            { c with exclusive := false, activeCount := decr c.activeCount })
        else none
      | TState.activeState =>
        some (TState.exitState, { c with activeCount := decr c.activeCount })
      | _ => none
    | TState.noState => none

/-! ## The `checkcast` opcode (vm.cpp 1040-1059) -/

/-- A constant-pool slot in the states `checkcast` can observe: a raw
class-name byte array (unresolved) or a resolved class. -/
inductive PoolEntry where
  | raw (name : List Char)
  | cls (c : ClassM)

/-- The interpreter state touched by the `checkcast` case: `ip` (pointing
at the first index byte), the operand stack (head = `stack[sp - 1]`,
`none` = the null reference), the constant pool of the current code, and
the thread's exception slot. -/
structure CCState where
  ip : Nat
  stack : List (Option ObjM)
  pool : List PoolEntry
  exception : Option ObjM

/-- Outcome of the `checkcast` case: dispatch the next opcode
(`goto loop`) or enter the unwinder (`goto throw_`). -/
inductive CCOutcome where
  | next (st : CCState)
  | thrown (st : CCState)

/-- Shallow embedding of the `checkcast` case of `run` (vm.cpp 1040-1059).
Both index bytes are read (advancing `ip`) before the null test of
`stack[sp - 1]`.  On a non-null top the pool entry is resolved —
`resolveClassFn` abstracts `resolveClass(t, codePool(t, code), index)`,
returning either the exception it raised or the class and the updated
pool — and `instanceOf` decides between falling through and a
ClassCastException built by `makeCCE` (abstracting the `makeString` +
`makeClassCastException` sequence).  On a null top nothing further
happens.  `none` models operand-stack underflow. -/
def checkcast
    (resolveClassFn : List PoolEntry → Nat → Except ObjM (ClassM × List PoolEntry))
    (makeCCE : ClassM → ObjM → ObjM) (body : List Nat) (st : CCState) :
    Option CCOutcome :=
  let index1 := body.getD st.ip 0
  let index2 := body.getD (st.ip + 1) 0
  let st1 : CCState := { st with ip := st.ip + 2 }
  match st.stack with
  | [] => none
  | none :: _rest => some (CCOutcome.next st1)
  | some o :: _rest =>
    match resolveClassFn st.pool ((index1 <<< 8) ||| index2) with
    | Except.error e => some (CCOutcome.thrown { st1 with exception := some e })
    | Except.ok (c, pool') =>
      if instanceOf c (some o) then some (CCOutcome.next { st1 with pool := pool' })
      else
        some (CCOutcome.thrown
          { st1 with pool := pool', exception := some (makeCCE c o) })

/-! ## Theorems -/

/-- C1: the claim states that for a thread at a safepoint, `iterate`
visits the thread, frame, code and exception slots, then every live
operand-stack slot — the set of visited stack addresses equalling
`{ &stack[i] | 0 ≤ i < sp }` — then the `p` slot of every protector link.
The code instead visits `&stack[sp]` on every iteration of the stack
loop: at `sp = 2` the visited addresses are `stackSlot 2` twice, and
neither live slot `stackSlot 0` nor `stackSlot 1` is visited. -/
theorem iterate_visits_sp_slot :
    iterate ⟨2, []⟩ =
      [RootAddr.threadSlot, RootAddr.frameSlot, RootAddr.codeSlot,
        RootAddr.exceptionSlot, RootAddr.stackSlot 2, RootAddr.stackSlot 2]
      ∧ RootAddr.stackSlot 0 ∉ iterate ⟨2, []⟩
      ∧ RootAddr.stackSlot 1 ∉ iterate ⟨2, []⟩ := by
  decide

/-- Helper for the unwinder characterisation: `find?` returns the element
at position `j` when that element satisfies the predicate and no earlier
element does. -/
theorem find_first_of_take_all {α : Type} (p : α → Bool) :
    ∀ (l : List α) (j : Nat) (x : α),
      l.get? j = some x → p x = true →
      ((l.take j).all (fun y => ! p y)) = true →
      l.find? p = some x := by
  intro l
  induction l with
  | nil =>
    intro j x h
    simp at h
  | cons a as ih =>
    intro j x hget hp hall
    cases j with
    | zero =>
      simp only [List.get?] at hget
      obtain rfl : a = x := by injection hget
      exact List.find?_cons_of_pos _ hp
    | succ j' =>
      simp only [List.take_succ_cons, List.all_cons, Bool.and_eq_true,
        Bool.not_eq_true'] at hall
      obtain ⟨ha, hrest⟩ := hall
      rw [List.find?_cons_of_neg _ (by simp [ha])]
      exact ih j' x hget hp hrest

/-- Helper for the unwinder characterisation: a handler table where no
entry matches yields `find? = none`. -/
theorem find_none_of_all_not {α : Type} (p : α → Bool) (l : List α)
    (h : (l.all (fun y => ! p y)) = true) : l.find? p = none := by
  rw [List.find?_eq_none]
  intro x hx
  have := (List.all_eq_true.mp h) x hx
  simp only [Bool.not_eq_true'] at this
  simp [this]

/-- C2 counterexample: the claim requires the selected handler's pc range
to contain the faulting ip (`startPc ≤ ip < endPc`).  With a single frame
whose only handler spans `[10, 20)` and `catchType = 0`, and the faulting
`ip = 0` outside that range, the claim predicts no handler is selected;
the unwinder nevertheless selects it (restoring `sp = stackBase + 1` with
the exception pushed, `ip = 7`, exception cleared), because the source
loop never reads `startPc` or `endPc`. -/
theorem throw_ignores_pc_range :
    throwStep ⟨[⟨4, [⟨10, 20, 7, 0⟩], []⟩], 0, ⟨ClassM.mk false 7 [] none⟩⟩ =
      ThrowOutcome.handled [⟨4, [⟨10, 20, 7, 0⟩], []⟩] 5 7
        ⟨ClassM.mk false 7 [] none⟩ none
    ∧ ¬(10 ≤ 0 ∧ 0 < 20) :=
  ⟨rfl, by decide⟩

/-- C2 (amended): the unwind selects the lexically first handler (in
handler-table order) of the innermost frame whose `catchType` is 0 or
satisfies `instanceOf(pool[catchType], exception)`, moving outward
through the frame chain and performing no `startPc`/`endPc` test against
the faulting ip; on a match it restores `sp` to the frame's stack base,
sets `ip` to the handler's ip, pushes the exception, and clears
`t.exception`; when no handler of any frame matches, the exception is
uncaught. -/
theorem unwind_selects_first_match :
    (∀ (frames : List FrameU) (ip : Nat) (exc : ObjM) (i j : Nat)
        (f : FrameU) (eh : EH),
      frames.get? i = some f →
      f.handlers.get? j = some eh →
      handlerMatches f.pool exc eh = true →
      ((f.handlers.take j).all (fun h => ! handlerMatches f.pool exc h)) = true →
      ((frames.take i).all
        (fun g => g.handlers.all (fun h => ! handlerMatches g.pool exc h))) = true →
      throwStep ⟨frames, ip, exc⟩ =
        ThrowOutcome.handled (frames.drop i) (f.stackBase + 1) eh.handlerIp exc none)
    ∧ (∀ (frames : List FrameU) (ip : Nat) (exc : ObjM),
      (frames.all
        (fun g => g.handlers.all (fun h => ! handlerMatches g.pool exc h))) = true →
      throwStep ⟨frames, ip, exc⟩ = ThrowOutcome.uncaught exc) := by
  constructor
  · intro frames ip exc i j f eh hframe hhandler hmatch htake hframes
    show unwindLoop exc frames =
      ThrowOutcome.handled (frames.drop i) (f.stackBase + 1) eh.handlerIp exc none
    induction frames generalizing i with
    | nil => simp at hframe
    | cons g gs ih =>
      cases i with
      | zero =>
        simp only [List.get?] at hframe
        obtain rfl : g = f := by injection hframe
        have hfind := find_first_of_take_all
          (fun h => handlerMatches g.pool exc h) g.handlers j eh hhandler hmatch htake
        simp [unwindLoop, hfind]
      | succ i' =>
        simp only [List.take_succ_cons, List.all_cons, Bool.and_eq_true] at hframes
        obtain ⟨hg, hrest⟩ := hframes
        have hgnone := find_none_of_all_not
          (fun h => handlerMatches g.pool exc h) g.handlers hg
        simp only [unwindLoop, hgnone, List.drop_succ_cons]
        exact ih i' hframe hrest
  · intro frames ip exc hall
    show unwindLoop exc frames = ThrowOutcome.uncaught exc
    induction frames with
    | nil => rfl
    | cons g gs ih =>
      simp only [List.all_cons, Bool.and_eq_true] at hall
      obtain ⟨hg, hrest⟩ := hall
      have hgnone := find_none_of_all_not
        (fun h => handlerMatches g.pool exc h) g.handlers hg
      simp only [unwindLoop, hgnone]
      exact ih hrest

/-- Demonstration class hierarchy for the unwinder witness: `clsSub`
extends `clsTop`; `clsOther` is unrelated. -/
def clsTop : ClassM := ClassM.mk false 1 [] none

/-- Demonstration subclass of `clsTop`. -/
def clsSub : ClassM := ClassM.mk false 2 [] (some clsTop)

/-- Demonstration class unrelated to the thrown exception's class. -/
def clsOther : ClassM := ClassM.mk false 9 [] none

/-- Demonstration exception object, an instance of `clsSub`. -/
def excObj : ObjM := ⟨clsSub⟩

/-- Demonstration innermost frame: its only handler catches `clsOther`,
which the exception is not an instance of. -/
def frameInnerDemo : FrameU := ⟨3, [⟨0, 0, 40, 1⟩], [clsOther, clsOther]⟩

/-- Demonstration caller frame: its first handler catches `clsOther`
(no match), its second catches `clsTop` (matches via the superclass
chain of `clsSub`). -/
def frameOuterDemo : FrameU :=
  ⟨1, [⟨0, 0, 50, 1⟩, ⟨0, 0, 60, 2⟩], [clsOther, clsOther, clsTop]⟩

/-- C2 witness: the amended selection theorem applied to a two-frame
chain — the innermost frame's handler does not match, the caller's
second handler is the first match (frame index 1, handler index 1), and
the unwinder hands control to it. -/
theorem unwind_selects_first_match_witness :
    throwStep ⟨[frameInnerDemo, frameOuterDemo], 17, excObj⟩ =
      ThrowOutcome.handled [frameOuterDemo] 2 60 excObj none :=
  unwind_selects_first_match.1 [frameInnerDemo, frameOuterDemo] 17 excObj 1 1
    frameOuterDemo ⟨0, 0, 60, 2⟩ (by rfl) (by rfl) (by rfl) (by rfl) (by rfl)

/-- C8: in the thread coordinator's `enter`, `liveCount` grows only on
the NoState → ActiveState transition: for any completed call (for
counters in the `unsigned` range with at least one live thread, which
holds whenever a live thread calls `enter`), an increase of `liveCount`
implies the call was NoState → ActiveState, and then the increase is
exactly one. -/
theorem enter_liveCount_increment (st s st' : TState) (c c' : Coord)
    (hL : 1 ≤ c.liveCount) (hU : c.liveCount < U32)
    (h : enter st c s = some (st', c'))
    (hlt : c.liveCount < c'.liveCount) :
    st = TState.noState ∧ s = TState.activeState
      ∧ c'.liveCount = c.liveCount + 1 := by
  obtain ⟨ex, ac, lc⟩ := c
  obtain ⟨ex', ac', lc'⟩ := c'
  simp only [U32] at hU
  dsimp only at hL hU hlt ⊢
  cases st <;> cases s <;> cases ex <;>
    first
      | exact Option.noConfusion h
      | (dsimp only [enter] at h
         try simp only [reduceIte, Option.some.injEq, Prod.mk.injEq, Coord.mk.injEq,
           decr, incr, U32] at h
         try obtain ⟨h1, h2, h3, h4⟩ := h
         first
           | exact ⟨rfl, rfl, by omega⟩
           | (exfalso; omega))

/-- C8 witness: the theorem applied to the NoState → ActiveState call at
`liveCount = activeCount = 1`, which completes with both counters at 2. -/
theorem enter_liveCount_increment_witness :
    enter TState.noState ⟨false, 1, 1⟩ TState.activeState =
      some (TState.activeState, ⟨false, 2, 2⟩)
    ∧ (TState.noState = TState.noState ∧ TState.activeState = TState.activeState
        ∧ (2 : Nat) = 1 + 1) :=
  ⟨by decide,
   enter_liveCount_increment TState.noState TState.activeState TState.activeState
     ⟨false, 1, 1⟩ ⟨false, 2, 2⟩ (by decide) (by decide) (by decide) (by decide)⟩

/-- C3: the claim states that on invocation with parameter count `k` the
`k` parameter slots `stack[sp-k..sp)` are copied into the new frame's
`locals[0..k)`.  The code's `memcpy` third argument is `parameterCount`,
i.e. `k` bytes, not `k` slots: with `k = 1`, `sp = 3` and the parameter
slot holding `0x0102030405060708`, the new frame's `locals[0]` receives
only the low byte `8` (the other checked parts behave as claimed: no
StackOverflowError at `maxStack = 10`, caller `ip = 7` written back,
stack base `2 = sp - k`, new `ip = 0`). -/
theorem invoke_copies_bytes_not_slots :
    invokeStep 10 3 1 [0, 0, 72623859790382856] (List.replicate 32 0) 7 =
      InvokeOutcome.entered 7 2 [8, 0, 0, 0] 0 2
    ∧ invokeStep 10 3 1 [0, 0, 72623859790382856] (List.replicate 32 0) 7 ≠
      InvokeOutcome.entered 7 2 [72623859790382856, 0, 0, 0] 0 2 := by
  decide

/-- C4: the claim states that `if_icmple` branches exactly when
`a ≤ b`.  The code tests `intValue(t, a) < intValue(t, b)`: with
`a = b = 0` (stack `[b, a] = [0, 0]`) and offset bytes `0, 10` at
`ip = 1`, the claim requires a branch, yet the result `ip` is the
fall-through `3`, not the branch target `(1 + 2 - 1 + 10) % U32 = 12`. -/
theorem if_icmple_strict_on_equal :
    if_icmpleStep [0, 0, 10] 1 [0, 0] = some ([], 3)
    ∧ (0 : Int) ≤ 0
    ∧ (3 : Nat) ≠ (1 + 2 - 1 + 10) % U32 := by
  decide

/-- C5: the claim states that for a non-null array `arraylength` pushes
the boxed length and continues at the next opcode, the trailing
`abort(t)` being unreachable on that branch.  The case block has no
`goto loop`: on a non-null int array of length 3 the boxed length is
pushed and control then falls through to `abort(t)` — the outcome is
`aborted`, not `continued`. -/
theorem arraylength_aborts_on_nonnull :
    arraylengthStep [Val.varr ArrKind.intK 3] =
      some (ALOutcome.aborted [Val.vint 3])
    ∧ arraylengthStep [Val.varr ArrKind.intK 3] ≠
      some (ALOutcome.continued [Val.vint 3]) := by
  decide

/-- C6: the claim states that `makeTrace` writes the live `ip` into the
current frame, returns one `(method, ip)` entry per frame, and leaves
`t->frame` unchanged.  The loop's induction variable is `t->frame`
itself: for a thread with a single frame `(method 5, saved ip 99)` and
live `ip = 42`, the trace `[(5, 42)]` is produced with the live ip as
claimed, but the post-call frame chain is `[]`, not the original
single-frame chain. -/
theorem makeTrace_clears_frame_chain :
    makeTrace ⟨[⟨5, 99⟩], 42⟩ = some (⟨[], 42⟩, [(5, 42)])
    ∧ (⟨[], 42⟩ : TThread) ≠ ⟨[⟨5, 99⟩], 42⟩ := by
  exact ⟨rfl, by decide⟩

/-- C7: every out-of-range `iastore` (index `i < 0` or `i ≥ len`) raises
ArrayIndexOutOfBoundsException whose message is the `%d not in [0,%d]`
rendering of the index and length, a null array raises
NullPointerException, and in particular storing at index 5 into an int
array of length 3 yields the message `"5 not in [0,3]"`. -/
theorem iastore_oob_message :
    (∀ (a : List Int) (i v : Int), i < 0 ∨ (a.length : Int) ≤ i →
      iastore (some a) i v = IastoreOutcome.arrayIndexOutOfBounds (oobMessage i a.length))
    ∧ (∀ (i v : Int), iastore none i v = IastoreOutcome.nullPointer)
    ∧ iastore (some [0, 0, 0]) 5 0 =
        IastoreOutcome.arrayIndexOutOfBounds "5 not in [0,3]" := by
  refine ⟨?_, fun i v => rfl, ?_⟩
  · intro a i v h
    simp only [iastore]
    rw [if_neg]
    omega
  · rfl

/-- C7 witness: the general out-of-range branch of the theorem applied at
index 5 against a length-3 array. -/
theorem iastore_oob_message_witness :
    iastore (some [0, 0, 0]) 5 7 =
      IastoreOutcome.arrayIndexOutOfBounds (oobMessage 5 3) :=
  iastore_oob_message.1 [0, 0, 0] 5 7 (by decide)

/-- C9: with a null value on top of the operand stack, `checkcast`
consumes its two index bytes (for any code body), leaves the stack and
the constant pool untouched, never invokes the class resolver (the
conclusion holds for every resolver), leaves the exception slot exactly
as it was, and continues with the next opcode. -/
theorem checkcast_null_noop
    (resolveClassFn : List PoolEntry → Nat → Except ObjM (ClassM × List PoolEntry))
    (makeCCE : ClassM → ObjM → ObjM) (body : List Nat)
    (ip : Nat) (rest : List (Option ObjM)) (pool : List PoolEntry)
    (exc0 : Option ObjM) :
    checkcast resolveClassFn makeCCE body ⟨ip, none :: rest, pool, exc0⟩ =
      some (CCOutcome.next ⟨ip + 2, none :: rest, pool, exc0⟩) :=
  rfl

/-- C9 witness: the theorem applied to a concrete resolver, code body and
state with a null on top of a one-slot stack. -/
theorem checkcast_null_noop_witness :
    checkcast (fun p _ => Except.ok (ClassM.mk false 0 [] none, p))
      (fun _ o => o) [0, 3] ⟨0, [none], [], none⟩ =
      some (CCOutcome.next ⟨2, [none], [], none⟩) :=
  checkcast_null_noop (fun p _ => Except.ok (ClassM.mk false 0 [] none, p))
    (fun _ o => o) [0, 3] 0 [] [] none

/-- C10: protector registration is LIFO and balanced — construction
pushes the slot, destruction restores exactly the list saved at
construction, any properly nested arrangement of scopes leaves the
thread's protector list unchanged — and while a scope is open its slot
is among the addresses the root scanner visits. -/
theorem protector_lifo_balanced :
    (∀ (l : List Nat) (slot : Nat), (protectorInit l slot).1 = slot :: l)
    ∧ (∀ (l : List Nat) (slot : Nat), protectorDispose (protectorInit l slot).2 = l)
    ∧ (∀ (s : ProtScopes) (l : List Nat), runProtScopes s l = l)
    ∧ (∀ (sp slot : Nat) (l : List Nat),
        RootAddr.protSlot slot ∈ iterate ⟨sp, (protectorInit l slot).1⟩) := by
  refine ⟨fun l slot => rfl, fun l slot => rfl, ?_, ?_⟩
  · intro s
    induction s with
    | nil => intro l; rfl
    | scope slot inner rest ih_inner ih_rest =>
      intro l
      simp only [runProtScopes, protectorInit, protectorDispose]
      exact ih_rest l
  · intro sp slot l
    simp [iterate, protectorInit]

/-- C10 witness: the theorem applied to a single scope protecting slot 5
against an empty protector list. -/
theorem protector_lifo_balanced_witness :
    (protectorInit [] 5).1 = [5]
    ∧ protectorDispose (protectorInit [] 5).2 = []
    ∧ runProtScopes (ProtScopes.scope 5 ProtScopes.nil ProtScopes.nil) [] = []
    ∧ RootAddr.protSlot 5 ∈ iterate ⟨0, (protectorInit [] 5).1⟩ :=
  ⟨protector_lifo_balanced.1 [] 5, protector_lifo_balanced.2.1 [] 5,
    protector_lifo_balanced.2.2.1 (ProtScopes.scope 5 ProtScopes.nil ProtScopes.nil) [],
    protector_lifo_balanced.2.2.2 0 5 []⟩

end Vm
